import Mathlib

/-!
# Verification of the iot-health-check anomaly pipeline

A shallow embedding of `src/iot-health-check.py`: the normalizers
(`get_devices_inactive`, `get_devices_low_battery`, `get_devices_no_roomplan`,
`get_zway_devices_failed`, `get_zway_devices_low_battery`, `get_log_errors`)
and the report-assembly sorts from the `context` dictionary.

Modelling conventions, each justified against the Python source:

* Python strings are `List Char`; Python compares strings lexicographically by
  code point, which coincides with the lexicographic `LinearOrder (List Char)`.
* `LastUpdate` is modelled as seconds since an epoch (an `Int`).  The source
  parses the field with `datetime.strptime(_, "%Y-%m-%d %H:%M:%S")` and later
  sorts by the raw string; because that format is fixed width with zero
  padding, string order and chronological order coincide, so both the
  day-difference test and the report sort are expressed on the timestamp.
* Python `timedelta.days` is floor division of the signed duration by one day
  (86400 seconds), i.e. `Int.fdiv`.
* A field the source reads with `d[k]` where the data model allows `k` to be
  absent is an `Option`; reading `none` models Python's `KeyError`, so the
  function returns `Option` and yields `none` exactly when the source raises.
* The patterns handed to `re.search` are modelled by a small regular-expression
  type with the standard Brzozowski-derivative matcher; `Regex.research` scans
  every start position, matching any contiguous slice, exactly as `re.search`
  does (a match anywhere suffices, no anchoring).
* `defaultdict(int)` together with the final comprehension over `errors.keys()`
  is an association list in key-insertion order (`bumpKey`), matching Python's
  insertion-ordered dictionaries.
-/

/-- Regular expressions: the model of the configured `LOG_MESSAGES_IGNORED`
patterns that the source hands to `re.search`. -/
inductive Regex where
  | emp : Regex
  | eps : Regex
  | chr : Char → Regex
  | alt : Regex → Regex → Regex
  | cat : Regex → Regex → Regex
  | star : Regex → Regex
deriving DecidableEq, Repr

/-- Does the regex accept the empty string? -/
def Regex.nullable : Regex → Bool
  | .emp => false
  | .eps => true
  | .chr _ => false
  | .alt r s => r.nullable || s.nullable
  | .cat r s => r.nullable && s.nullable
  | .star _ => true

/-- Brzozowski derivative of a regex by one character. -/
def Regex.deriv : Regex → Char → Regex
  | .emp, _ => .emp
  | .eps, _ => .emp
  | .chr c, a => if a = c then .eps else .emp
  | .alt r s, a => .alt (r.deriv a) (s.deriv a)
  | .cat r s, a =>
      if r.nullable then .alt (.cat (r.deriv a) s) (s.deriv a)
      else .cat (r.deriv a) s
  | .star r, a => .cat (r.deriv a) (.star r)

/-- Full (anchored, whole-string) match, by iterated derivatives. -/
def Regex.fullMatch (r : Regex) (s : List Char) : Bool :=
  (s.foldl Regex.deriv r).nullable

/-- Does the regex match some initial segment of `s`?  (`re.match` semantics.) -/
def Regex.matchesInit : Regex → List Char → Bool
  | r, [] => r.nullable
  | r, c :: cs => r.nullable || (r.deriv c).matchesInit cs

/-- `re.search` semantics: the regex matches some initial segment of some
suffix of `s`, i.e. some contiguous slice of `s`, anywhere. -/
def Regex.research : Regex → List Char → Bool
  | r, [] => r.nullable
  | r, c :: cs => r.matchesInit (c :: cs) || r.research cs

/-- A Domoticz device record, restricted to the fields the pipeline reads:
`idx`, `LastUpdate`, `BatteryLevel`, `PlanID`.  `batteryLevel` is optional
because the data model allows it to be absent. -/
structure Device where
  idx : List Char
  lastUpdate : Int
  batteryLevel : Option Int
  planID : List Char
deriving DecidableEq, Repr

/-- The `metrics` sub-structure of a Z-Way device.  `level` is present only
for battery devices. -/
structure ZwayMetrics where
  isFailed : Bool
  level : Option Int
  title : List Char
deriving DecidableEq, Repr

/-- A Z-Way gateway device record, restricted to the fields the pipeline
reads. -/
structure ZwayDevice where
  nodeId : Int
  technology : List Char
  deviceType : List Char
  metrics : ZwayMetrics
  locationName : List Char
deriving DecidableEq, Repr

/-- A raw log record: the pipeline reads only `message`. -/
structure LogEntry where
  message : List Char
deriving DecidableEq, Repr

/-- One aggregated log-error row: `{'text': key, 'count': n}`. -/
structure ErrorEntry where
  text : List Char
  count : Nat
deriving DecidableEq, Repr

/-- The configuration-derived suppression rules: `DEVICES_IGNORED`,
`DEVICES_TIMEOUT_PERIOD`, `DEVICES_LOW_BATTERY`, `LOW_BATTERY_LEVEL`,
`TIMEOUT_PERIOD`.  The ignored-log-pattern list is passed separately, as the
source loads it inside `get_log_errors`. -/
structure SuppressionRules where
  ignoredDeviceIds : List (List Char)
  timeoutOverrides : List (List Char × Int)
  lowBatteryDeviceIds : List (List Char)
  lowBatteryThreshold : Int
  defaultTimeoutDays : Int
deriving DecidableEq, Repr

/-- Lines 99–102: the per-device timeout, the override when the idx is a key
of `DEVICES_TIMEOUT_PERIOD` and the `DEFAULT` `TIMEOUT_PERIOD` otherwise. -/
def effectiveTimeout (rules : SuppressionRules) (idx : List Char) : Int :=
  match rules.timeoutOverrides.lookup idx with
  | some t => t
  | none => rules.defaultTimeoutDays

/-- Line 104: `(now - last_update).days`, Python floor division of the signed
elapsed seconds by 86400. -/
def staleDays (now : Int) (device : Device) : Int :=
  (now - device.lastUpdate).fdiv 86400

/-- The body of the loop of `get_devices_inactive` (lines 89–105): skip
ignored devices, otherwise append the device when it has been inactive for at
least the effective timeout in whole days. -/
def inactiveStep (rules : SuppressionRules) (now : Int) (acc : List Device)
    (device : Device) : List Device :=
  if device.idx ∈ rules.ignoredDeviceIds then acc
  else if effectiveTimeout rules device.idx ≤ staleDays now device then
    acc ++ [device]
  else acc

/-- Lines 84–107: `get_devices_inactive`.  `now` is `datetime.now()`, passed
as a parameter. -/
def get_devices_inactive (rules : SuppressionRules) (now : Int)
    (domoticz_devices : List Device) : List Device :=
  domoticz_devices.foldl (inactiveStep rules now) []

/-- Lines 110–125: `get_devices_low_battery`.  A device outside the opt-in
set `DEVICES_LOW_BATTERY` is skipped before its battery is read; for an
opted-in device, `device['BatteryLevel']` raises `KeyError` (modelled `none`)
when the field is absent. -/
def get_devices_low_battery (rules : SuppressionRules) :
    List Device → Option (List Device)
  | [] => some []
  | device :: rest =>
    if device.idx ∈ rules.lowBatteryDeviceIds then
      match device.batteryLevel with
      | none => none
      | some b =>
        match get_devices_low_battery rules rest with
        | none => none
        | some tail =>
          some (if b < rules.lowBatteryThreshold then device :: tail else tail)
    else get_devices_low_battery rules rest

/-- Lines 150–152: `get_devices_no_roomplan`, the devices with
`PlanID == '0'`. -/
def get_devices_no_roomplan (devices : List Device) : List Device :=
  devices.filter (fun d => d.planID == "0".toList)

/-- Lines 138–141: `get_zway_devices_failed`, the devices with
`metrics.isFailed` true, passed through unchanged. -/
def get_zway_devices_failed (zway_devices : List ZwayDevice) : List ZwayDevice :=
  zway_devices.filter (fun d => d.metrics.isFailed)

/-- Lines 143–148: `get_zway_devices_low_battery`.  The `and` short-circuits,
so `metrics['level']` is only read (and can only raise, modelled `none`) for
devices whose `deviceType` is `'battery'`. -/
def get_zway_devices_low_battery (low_battery_level : Int) :
    List ZwayDevice → Option (List ZwayDevice)
  | [] => some []
  | d :: rest =>
    if d.deviceType == "battery".toList then
      match d.metrics.level with
      | none => none
      | some lvl =>
        match get_zway_devices_low_battery low_battery_level rest with
        | none => none
        | some tail =>
          some (if lvl < low_battery_level then d :: tail else tail)
    else get_zway_devices_low_battery low_battery_level rest

/-- Line 72: a log entry's aggregation key, the message with its first 32
characters dropped. -/
def logKey (item : LogEntry) : List Char :=
  item.message.drop 32

/-- Lines 71–76: the inner pattern loop with its `break`, equivalent to: some
ignored pattern `re.search`-matches the key. -/
def ignore_log_message (log_messages_ignored : List Regex) (key : List Char) : Bool :=
  log_messages_ignored.any (fun message => message.research key)

/-- `errors[key] += 1` on a `defaultdict(int)`: bump the first row with this
text, or append a fresh row with count 1; rows stay in key-insertion order,
as in Python's insertion-ordered dictionaries. -/
def bumpKey : List ErrorEntry → List Char → List ErrorEntry
  | [], key => [{ text := key, count := 1 }]
  | e :: es, key =>
    if e.text = key then { text := key, count := e.count + 1 } :: es
    else e :: bumpKey es key

/-- The body of the loop of `get_log_errors` (lines 70–79). -/
def logStep (log_messages_ignored : List Regex) (errors : List ErrorEntry)
    (item : LogEntry) : List ErrorEntry :=
  if ignore_log_message log_messages_ignored (logKey item) then errors
  else bumpKey errors (logKey item)

/-- Lines 59–81: `get_log_errors`.  The payload is `none` when the response
carries no `'result'` key (line 64), in which case the function returns `[]`
(line 65); the final comprehension over `errors.keys()` returns the rows in
key-insertion order, which is exactly the association list the loop built. -/
def get_log_errors (log_messages_ignored : List Regex)
    (payload : Option (List LogEntry)) : List ErrorEntry :=
  match payload with
  | none => []
  | some items => items.foldl (logStep log_messages_ignored) []

/-- Lines 190–191 of the `context` dictionary:
`sorted(devices_inactive, key=lambda d: d['LastUpdate'])` (ascending, stable;
string order of the fixed-width timestamp equals timestamp order). -/
def report_devices_inactive (rules : SuppressionRules) (now : Int)
    (domoticz_devices : List Device) : List Device :=
  List.insertionSort (fun a b : Device => a.lastUpdate ≤ b.lastUpdate)
    (get_devices_inactive rules now domoticz_devices)

/-- Lines 194–195: `sorted(devices_no_roomplan, key=lambda d: d['idx'])`,
ascending lexicographic string order on `idx`. -/
def report_devices_no_roomplan (devices : List Device) : List Device :=
  List.insertionSort (fun a b : Device => a.idx ≤ b.idx)
    (get_devices_no_roomplan devices)

/-- Lines 196–197: `sorted(log_errors, key=lambda e: e['count'], reverse=True)`,
descending by count, stable. -/
def report_log_errors (log_messages_ignored : List Regex)
    (payload : Option (List LogEntry)) : List ErrorEntry :=
  List.insertionSort (fun a b : ErrorEntry => b.count ≤ a.count)
    (get_log_errors log_messages_ignored payload)

/-! ## Regex search characterization -/

theorem Regex.fullMatch_nil (r : Regex) : r.fullMatch [] = r.nullable := rfl

theorem Regex.fullMatch_cons (r : Regex) (c : Char) (cs : List Char) :
    r.fullMatch (c :: cs) = (r.deriv c).fullMatch cs := rfl

/-- `matchesInit` holds exactly when the regex fully matches some initial
segment of the string. -/
theorem Regex.matchesInit_iff (r : Regex) (s : List Char) :
    r.matchesInit s = true ↔ ∃ n, r.fullMatch (s.take n) = true := by
  induction s generalizing r with
  | nil =>
    simp only [Regex.matchesInit, List.take_nil]
    exact ⟨fun h => ⟨0, h⟩, fun ⟨_, h⟩ => h⟩
  | cons c cs ih =>
    simp only [Regex.matchesInit, Bool.or_eq_true]
    constructor
    · rintro (h | h)
      · exact ⟨0, h⟩
      · obtain ⟨n, hn⟩ := (ih (r.deriv c)).mp h
        exact ⟨n + 1, by simpa [Regex.fullMatch_cons] using hn⟩
    · rintro ⟨n, hn⟩
      cases n with
      | zero => exact Or.inl hn
      | succ n =>
        right
        exact (ih (r.deriv c)).mpr ⟨n, by simpa [Regex.fullMatch_cons] using hn⟩

/-- `research` holds exactly when `matchesInit` holds at some start
position. -/
theorem Regex.research_iff_drop (r : Regex) (s : List Char) :
    r.research s = true ↔ ∃ i, r.matchesInit (s.drop i) = true := by
  induction s with
  | nil =>
    simp only [Regex.research, List.drop_nil]
    exact ⟨fun h => ⟨0, h⟩, fun ⟨_, h⟩ => h⟩
  | cons c cs ih =>
    simp only [Regex.research, Bool.or_eq_true]
    constructor
    · rintro (h | h)
      · exact ⟨0, h⟩
      · obtain ⟨i, hi⟩ := ih.mp h
        exact ⟨i + 1, hi⟩
    · rintro ⟨i, hi⟩
      cases i with
      | zero => exact Or.inl hi
      | succ i => exact Or.inr (ih.mpr ⟨i, hi⟩)

/-- `re.search` semantics, spelled out: the pattern matches some contiguous
slice of the string — anywhere inside it, with no anchoring and no need to
match the whole string. -/
theorem Regex.research_iff_slice (r : Regex) (s : List Char) :
    r.research s = true ↔ ∃ i n, r.fullMatch ((s.drop i).take n) = true := by
  rw [Regex.research_iff_drop]
  constructor
  · rintro ⟨i, hi⟩
    obtain ⟨n, hn⟩ := (Regex.matchesInit_iff r (s.drop i)).mp hi
    exact ⟨i, n, hn⟩
  · rintro ⟨i, n, hn⟩
    exact ⟨i, (Regex.matchesInit_iff r (s.drop i)).mpr ⟨n, hn⟩⟩

/-- The suppression test of `get_log_errors`: a key is dropped exactly when
some ignored pattern matches some contiguous slice of it. -/
theorem ignore_log_message_iff (log_messages_ignored : List Regex) (key : List Char) :
    ignore_log_message log_messages_ignored key = true ↔
      ∃ p ∈ log_messages_ignored, ∃ i n, p.fullMatch ((key.drop i).take n) = true := by
  simp only [ignore_log_message, List.any_eq_true]
  constructor
  · rintro ⟨p, hp, hm⟩
    exact ⟨p, hp, (Regex.research_iff_slice p key).mp hm⟩
  · rintro ⟨p, hp, hm⟩
    exact ⟨p, hp, (Regex.research_iff_slice p key).mpr hm⟩

/-! ## Device-filter lemmas -/

/-- The inactivity condition as a boolean predicate on one device. -/
def inactivePred (rules : SuppressionRules) (now : Int) (d : Device) : Bool :=
  decide (d.idx ∉ rules.ignoredDeviceIds) &&
    decide (effectiveTimeout rules d.idx ≤ staleDays now d)

theorem foldl_inactiveStep (rules : SuppressionRules) (now : Int)
    (devices : List Device) :
    ∀ acc, devices.foldl (inactiveStep rules now) acc =
      acc ++ devices.filter (inactivePred rules now) := by
  induction devices with
  | nil => intro acc; simp
  | cons d ds ih =>
    intro acc
    rw [List.foldl_cons, ih, List.filter_cons]
    by_cases h1 : d.idx ∈ rules.ignoredDeviceIds
    · simp [inactiveStep, inactivePred, h1]
    · by_cases h2 : effectiveTimeout rules d.idx ≤ staleDays now d
      · simp [inactiveStep, inactivePred, h1, h2]
      · simp [inactiveStep, inactivePred, h1, h2]

theorem get_devices_inactive_eq_filter (rules : SuppressionRules) (now : Int)
    (devices : List Device) :
    get_devices_inactive rules now devices =
      devices.filter (inactivePred rules now) := by
  rw [get_devices_inactive, foldl_inactiveStep]
  simp

/-- The automation low-battery condition as a boolean predicate on one
device: opted in, battery present, battery below the threshold. -/
def lowBatteryPred (rules : SuppressionRules) (d : Device) : Bool :=
  decide (d.idx ∈ rules.lowBatteryDeviceIds) &&
    match d.batteryLevel with
    | some b => decide (b < rules.lowBatteryThreshold)
    | none => false

theorem get_devices_low_battery_eq_filter (rules : SuppressionRules) :
    ∀ (devices : List Device) (out : List Device),
      get_devices_low_battery rules devices = some out →
      out = devices.filter (lowBatteryPred rules) := by
  intro devices
  induction devices with
  | nil =>
    intro out h
    simp only [get_devices_low_battery, Option.some.injEq] at h
    simp [h.symm]
  | cons d ds ih =>
    intro out h
    simp only [get_devices_low_battery] at h
    by_cases h1 : d.idx ∈ rules.lowBatteryDeviceIds
    · rw [if_pos h1] at h
      cases hb : d.batteryLevel with
      | none => rw [hb] at h; exact absurd h (by simp)
      | some b =>
        rw [hb] at h
        cases ht : get_devices_low_battery rules ds with
        | none => rw [ht] at h; exact absurd h (by simp)
        | some tail =>
          rw [ht] at h
          simp only [Option.some.injEq] at h
          have htail := ih tail ht
          by_cases h2 : b < rules.lowBatteryThreshold
          · rw [if_pos h2] at h
            rw [← h, htail, List.filter_cons]
            simp [lowBatteryPred, h1, hb, h2]
          · rw [if_neg h2] at h
            rw [← h, htail, List.filter_cons]
            simp [lowBatteryPred, hb, h2]
    · rw [if_neg h1] at h
      rw [ih out h, List.filter_cons]
      simp [lowBatteryPred, h1]

theorem get_devices_low_battery_total (rules : SuppressionRules) :
    ∀ devices : List Device,
      (∀ d ∈ devices, d.idx ∈ rules.lowBatteryDeviceIds → d.batteryLevel ≠ none) →
      ∃ out, get_devices_low_battery rules devices = some out := by
  intro devices
  induction devices with
  | nil => intro _; exact ⟨[], rfl⟩
  | cons d ds ih =>
    intro h
    obtain ⟨tail, htail⟩ := ih (fun x hx => h x (List.mem_cons_of_mem d hx))
    by_cases h1 : d.idx ∈ rules.lowBatteryDeviceIds
    · cases hb : d.batteryLevel with
      | none => exact absurd hb (h d (List.mem_cons_self d ds) h1)
      | some b =>
        refine ⟨if b < rules.lowBatteryThreshold then d :: tail else tail, ?_⟩
        simp only [get_devices_low_battery, if_pos h1, hb, htail]
    · exact ⟨tail, by simp only [get_devices_low_battery, if_neg h1, htail]⟩

/-- The gateway low-battery condition as a boolean predicate. -/
def zwayLowBatteryPred (low_battery_level : Int) (d : ZwayDevice) : Bool :=
  (d.deviceType == "battery".toList) &&
    match d.metrics.level with
    | some lvl => decide (lvl < low_battery_level)
    | none => false

theorem get_zway_devices_low_battery_eq_filter (low_battery_level : Int) :
    ∀ (zway_devices : List ZwayDevice) (out : List ZwayDevice),
      get_zway_devices_low_battery low_battery_level zway_devices = some out →
      out = zway_devices.filter (zwayLowBatteryPred low_battery_level) := by
  intro zway_devices
  induction zway_devices with
  | nil =>
    intro out h
    simp only [get_zway_devices_low_battery, Option.some.injEq] at h
    simp [h.symm]
  | cons d ds ih =>
    intro out h
    simp only [get_zway_devices_low_battery] at h
    by_cases h1 : d.deviceType == "battery".toList
    · rw [if_pos h1] at h
      cases hb : d.metrics.level with
      | none => rw [hb] at h; exact absurd h (by simp)
      | some lvl =>
        rw [hb] at h
        cases ht : get_zway_devices_low_battery low_battery_level ds with
        | none => rw [ht] at h; exact absurd h (by simp)
        | some tail =>
          rw [ht] at h
          simp only [Option.some.injEq] at h
          have htail := ih tail ht
          have h1x : d.deviceType = "battery".toList := by simpa using h1
          by_cases h2 : lvl < low_battery_level
          · rw [if_pos h2] at h
            rw [← h, htail, List.filter_cons]
            simp [zwayLowBatteryPred, h1x, hb, h2]
          · rw [if_neg h2] at h
            rw [← h, htail, List.filter_cons]
            simp [zwayLowBatteryPred, hb, h2]
    · rw [if_neg h1] at h
      rw [ih out h, List.filter_cons]
      simp only [zwayLowBatteryPred, Bool.false_and, Bool.and_eq_true]
      rw [if_neg]
      simp only [Bool.and_eq_true, not_and]
      intro hc
      exact absurd hc h1

theorem get_zway_devices_low_battery_total (low_battery_level : Int) :
    ∀ zway_devices : List ZwayDevice,
      (∀ d ∈ zway_devices, d.deviceType = "battery".toList → d.metrics.level ≠ none) →
      ∃ out, get_zway_devices_low_battery low_battery_level zway_devices = some out := by
  intro zway_devices
  induction zway_devices with
  | nil => intro _; exact ⟨[], rfl⟩
  | cons d ds ih =>
    intro h
    obtain ⟨tail, htail⟩ := ih (fun x hx => h x (List.mem_cons_of_mem d hx))
    by_cases h1 : d.deviceType == "battery".toList
    · cases hb : d.metrics.level with
      | none => exact absurd hb (h d (List.mem_cons_self d ds) (by simpa using h1))
      | some lvl =>
        refine ⟨if lvl < low_battery_level then d :: tail else tail, ?_⟩
        simp only [get_zway_devices_low_battery, if_pos h1, hb, htail]
    · exact ⟨tail, by simp only [get_zway_devices_low_battery, if_neg h1, htail]⟩

/-! ## Log-aggregation lemmas -/

/-- The multiset of keys that survive suppression, in input order. -/
def survivingKeys (log_messages_ignored : List Regex) (items : List LogEntry) :
    List (List Char) :=
  (items.filter (fun item => !ignore_log_message log_messages_ignored (logKey item))).map
    logKey

/-- The count stored for a key: the count of the first row carrying it, 0 when
no row does. -/
def keyCount : List ErrorEntry → List Char → Nat
  | [], _ => 0
  | e :: es, key => if e.text = key then e.count else keyCount es key

theorem bumpKey_map_text (errors : List ErrorEntry) (key : List Char) :
    (bumpKey errors key).map ErrorEntry.text =
      if key ∈ errors.map ErrorEntry.text then errors.map ErrorEntry.text
      else errors.map ErrorEntry.text ++ [key] := by
  induction errors with
  | nil => simp [bumpKey]
  | cons e es ih =>
    by_cases h : e.text = key
    · simp [bumpKey, h]
    · simp only [bumpKey, if_neg h, List.map_cons]
      rw [ih]
      by_cases h2 : key ∈ es.map ErrorEntry.text
      · rw [if_pos h2, if_pos (List.mem_cons_of_mem _ h2)]
      · have hnot : key ∉ (e :: es).map ErrorEntry.text := by
          simp only [List.map_cons, List.mem_cons]
          rintro (rfl | hmem)
          · exact h rfl
          · exact h2 hmem
        rw [if_neg h2, if_neg (by simpa using hnot)]
        simp

theorem mem_bumpKey_map_text (errors : List ErrorEntry) (key k : List Char) :
    k ∈ (bumpKey errors key).map ErrorEntry.text ↔
      k ∈ errors.map ErrorEntry.text ∨ k = key := by
  rw [bumpKey_map_text]
  by_cases h : key ∈ errors.map ErrorEntry.text
  · rw [if_pos h]
    constructor
    · exact Or.inl
    · rintro (hk | rfl)
      · exact hk
      · exact h
  · rw [if_neg h]
    simp [List.mem_append]

theorem bumpKey_nodup (errors : List ErrorEntry) (key : List Char)
    (h : (errors.map ErrorEntry.text).Nodup) :
    ((bumpKey errors key).map ErrorEntry.text).Nodup := by
  rw [bumpKey_map_text]
  by_cases hm : key ∈ errors.map ErrorEntry.text
  · rw [if_pos hm]
    exact h
  · rw [if_neg hm]
    simp [List.nodup_append, h, hm]

theorem keyCount_bumpKey_self (errors : List ErrorEntry) (key : List Char) :
    keyCount (bumpKey errors key) key = keyCount errors key + 1 := by
  induction errors with
  | nil => simp [bumpKey, keyCount]
  | cons e es ih =>
    by_cases h : e.text = key
    · simp [bumpKey, keyCount, h]
    · simp [bumpKey, keyCount, h, ih]

theorem keyCount_bumpKey_other (errors : List ErrorEntry) (key k : List Char)
    (hne : k ≠ key) :
    keyCount (bumpKey errors key) k = keyCount errors k := by
  induction errors with
  | nil => simp [bumpKey, keyCount, Ne.symm hne]
  | cons e es ih =>
    by_cases h : e.text = key
    · have : key ≠ k := Ne.symm hne
      simp [bumpKey, keyCount, h, this]
    · by_cases h3 : e.text = k
      · simp [bumpKey, keyCount, h, h3, hne]
      · simp [bumpKey, keyCount, h, h3, ih]

theorem count_eq_keyCount (errors : List ErrorEntry)
    (h : (errors.map ErrorEntry.text).Nodup) :
    ∀ e ∈ errors, e.count = keyCount errors e.text := by
  induction errors with
  | nil => intro e he; simp at he
  | cons a es ih =>
    intro e he
    have hc := h
    rw [List.map_cons, List.nodup_cons] at hc
    have h' := hc
    rcases List.mem_cons.mp he with rfl | hmem
    · simp [keyCount]
    · have hne : a.text ≠ e.text := fun hEq =>
        h'.1 (hEq ▸ List.mem_map_of_mem ErrorEntry.text hmem)
      simp only [keyCount, if_neg hne]
      exact ih h'.2 e hmem

theorem foldl_logStep_mem (log_messages_ignored : List Regex) :
    ∀ (items : List LogEntry) (acc : List ErrorEntry) (k : List Char),
      (k ∈ (items.foldl (logStep log_messages_ignored) acc).map ErrorEntry.text) ↔
        k ∈ acc.map ErrorEntry.text ∨ k ∈ survivingKeys log_messages_ignored items := by
  intro items
  induction items with
  | nil => intro acc k; simp [survivingKeys]
  | cons item rest ih =>
    intro acc k
    rw [List.foldl_cons]
    by_cases h : ignore_log_message log_messages_ignored (logKey item)
    · rw [show logStep log_messages_ignored acc item = acc from by simp [logStep, h]]
      rw [ih, show survivingKeys log_messages_ignored (item :: rest) =
        survivingKeys log_messages_ignored rest from by
          simp [survivingKeys, List.filter_cons, h]]
    · rw [show logStep log_messages_ignored acc item = bumpKey acc (logKey item) from by
        simp [logStep, h]]
      rw [ih, show survivingKeys log_messages_ignored (item :: rest) =
        logKey item :: survivingKeys log_messages_ignored rest from by
          simp [survivingKeys, List.filter_cons, h]]
      rw [mem_bumpKey_map_text]
      simp only [List.mem_cons]
      tauto

theorem foldl_logStep_keyCount (log_messages_ignored : List Regex) :
    ∀ (items : List LogEntry) (acc : List ErrorEntry) (k : List Char),
      keyCount (items.foldl (logStep log_messages_ignored) acc) k =
        keyCount acc k + (survivingKeys log_messages_ignored items).count k := by
  intro items
  induction items with
  | nil => intro acc k; simp [survivingKeys]
  | cons item rest ih =>
    intro acc k
    rw [List.foldl_cons]
    by_cases h : ignore_log_message log_messages_ignored (logKey item)
    · rw [show logStep log_messages_ignored acc item = acc from by simp [logStep, h]]
      rw [ih, show survivingKeys log_messages_ignored (item :: rest) =
        survivingKeys log_messages_ignored rest from by
          simp [survivingKeys, List.filter_cons, h]]
    · rw [show logStep log_messages_ignored acc item = bumpKey acc (logKey item) from by
        simp [logStep, h]]
      rw [ih, show survivingKeys log_messages_ignored (item :: rest) =
        logKey item :: survivingKeys log_messages_ignored rest from by
          simp [survivingKeys, List.filter_cons, h]]
      by_cases hk : k = logKey item
      · subst hk
        rw [keyCount_bumpKey_self]
        simp [List.count_cons]
        omega
      · rw [keyCount_bumpKey_other _ _ _ hk]
        have : (logKey item == k) = false := by
          simpa using fun hEq => hk hEq.symm
        simp [List.count_cons, this]

theorem foldl_logStep_nodup (log_messages_ignored : List Regex) :
    ∀ (items : List LogEntry) (acc : List ErrorEntry),
      (acc.map ErrorEntry.text).Nodup →
      ((items.foldl (logStep log_messages_ignored) acc).map ErrorEntry.text).Nodup := by
  intro items
  induction items with
  | nil => intro acc h; simpa using h
  | cons item rest ih =>
    intro acc h
    rw [List.foldl_cons]
    by_cases hi : ignore_log_message log_messages_ignored (logKey item)
    · rw [show logStep log_messages_ignored acc item = acc from by simp [logStep, hi]]
      exact ih acc h
    · rw [show logStep log_messages_ignored acc item = bumpKey acc (logKey item) from by
        simp [logStep, hi]]
      exact ih _ (bumpKey_nodup acc (logKey item) h)

theorem get_log_errors_texts_nodup (log_messages_ignored : List Regex)
    (items : List LogEntry) :
    ((get_log_errors log_messages_ignored (some items)).map ErrorEntry.text).Nodup :=
  foldl_logStep_nodup log_messages_ignored items [] (by simp)

theorem mem_get_log_errors_iff (log_messages_ignored : List Regex)
    (items : List LogEntry) (e : ErrorEntry) :
    e ∈ get_log_errors log_messages_ignored (some items) ↔
      e.text ∈ survivingKeys log_messages_ignored items ∧
      e.count = (survivingKeys log_messages_ignored items).count e.text := by
  have hnodup := get_log_errors_texts_nodup log_messages_ignored items
  constructor
  · intro he
    have hmem : e.text ∈ (get_log_errors log_messages_ignored (some items)).map
        ErrorEntry.text := List.mem_map_of_mem ErrorEntry.text he
    have hsk := (foldl_logStep_mem log_messages_ignored items [] e.text).mp
      (by simpa [get_log_errors] using hmem)
    refine ⟨by simpa using hsk, ?_⟩
    have := count_eq_keyCount _ hnodup e he
    rw [this, show get_log_errors log_messages_ignored (some items) =
      items.foldl (logStep log_messages_ignored) [] from rfl,
      foldl_logStep_keyCount]
    simp [keyCount]
  · rintro ⟨h1, h2⟩
    have hmem : e.text ∈ (get_log_errors log_messages_ignored (some items)).map
        ErrorEntry.text := by
      rw [show get_log_errors log_messages_ignored (some items) =
        items.foldl (logStep log_messages_ignored) [] from rfl,
        foldl_logStep_mem]
      exact Or.inr h1
    obtain ⟨e', he', hte⟩ := List.mem_map.mp hmem
    have hcount : e'.count = (survivingKeys log_messages_ignored items).count e.text := by
      rw [count_eq_keyCount _ hnodup e' he', hte,
        show get_log_errors log_messages_ignored (some items) =
          items.foldl (logStep log_messages_ignored) [] from rfl,
        foldl_logStep_keyCount]
      simp [keyCount]
    have : e' = e := by
      obtain ⟨t', c'⟩ := e'
      obtain ⟨t, c⟩ := e
      simp only [ErrorEntry.mk.injEq]
      exact ⟨hte, by simpa [hte, ← h2] using hcount⟩
    exact this ▸ he'

theorem perm_keys_count {l₁ l₂ : List (List Char)} (h : l₁.Perm l₂) (k : List Char) :
    l₁.count k = l₂.count k := by
  induction h with
  | nil => rfl
  | cons x _ ih => simp [List.count_cons, ih]
  | swap x y l =>
    simp only [List.count_cons]
    omega
  | trans _ _ ih₁ ih₂ => exact ih₁.trans ih₂

theorem survivingKeys_perm (log_messages_ignored : List Regex)
    {items items' : List LogEntry} (h : items.Perm items') :
    (survivingKeys log_messages_ignored items).Perm
      (survivingKeys log_messages_ignored items') :=
  (h.filter _).map _

theorem get_log_errors_perm (log_messages_ignored : List Regex)
    {items items' : List LogEntry} (h : items.Perm items') :
    (get_log_errors log_messages_ignored (some items)).Perm
      (get_log_errors log_messages_ignored (some items')) := by
  have hsk := survivingKeys_perm log_messages_ignored h
  refine (List.perm_ext_iff_of_nodup
    (List.Nodup.of_map _ (get_log_errors_texts_nodup log_messages_ignored items))
    (List.Nodup.of_map _ (get_log_errors_texts_nodup log_messages_ignored items'))).mpr
    fun e => ?_
  rw [mem_get_log_errors_iff, mem_get_log_errors_iff, perm_keys_count hsk e.text]
  exact and_congr hsk.mem_iff Iff.rfl

/-! ## Concrete fixtures used by witnesses and counterexamples -/

def devA : Device := { idx := "A".toList, lastUpdate := 0, batteryLevel := none, planID := "1".toList }

def devB : Device := { idx := "B".toList, lastUpdate := 777600, batteryLevel := none, planID := "1".toList }

def rulesA : SuppressionRules :=
  { ignoredDeviceIds := [], timeoutOverrides := [], lowBatteryDeviceIds := [],
    lowBatteryThreshold := 20, defaultTimeoutDays := 5 }

def rulesB : SuppressionRules :=
  { rulesA with lowBatteryDeviceIds := ["8".toList, "9".toList] }

def rulesC : SuppressionRules :=
  { rulesA with lowBatteryDeviceIds := ["7".toList] }

def dev5 : Device := { idx := "5".toList, lastUpdate := 0, batteryLevel := some 0, planID := "1".toList }

def dev8 : Device := { idx := "8".toList, lastUpdate := 0, batteryLevel := some 10, planID := "1".toList }

def dev9 : Device := { idx := "9".toList, lastUpdate := 0, batteryLevel := some 50, planID := "1".toList }

def dev7none : Device := { idx := "7".toList, lastUpdate := 0, batteryLevel := none, planID := "1".toList }

def dev7ok : Device := { idx := "7".toList, lastUpdate := 0, batteryLevel := some 10, planID := "1".toList }

def dev2plan0 : Device := { idx := "2".toList, lastUpdate := 0, batteryLevel := none, planID := "0".toList }

def dev10plan0 : Device := { idx := "10".toList, lastUpdate := 0, batteryLevel := none, planID := "0".toList }

def patE : Regex := .chr 'E'

def logItem1 : LogEntry := { message := List.replicate 32 'x' ++ "disk full".toList }

def logItem2 : LogEntry := { message := List.replicate 32 'y' ++ "disk full".toList }

def logItem3 : LogEntry := { message := List.replicate 32 'x' ++ "Err".toList }

def zwaySensor : ZwayDevice :=
  { nodeId := 1, technology := "Z-Wave".toList, deviceType := "sensor".toList,
    metrics := { isFailed := true, level := none, title := "Sensor".toList },
    locationName := "Hall".toList }

def zwaySwitch : ZwayDevice := { zwaySensor with deviceType := "switch".toList }

def zwayBatt : ZwayDevice :=
  { nodeId := 2, technology := "Z-Wave".toList, deviceType := "battery".toList,
    metrics := { isFailed := false, level := some 5, title := "Batt".toList },
    locationName := "Hall".toList }

/-- Modelled from the spec: §4.7 claims each failed gateway device is reshaped
into `{id: nodeId, name: title, location: locationName}`.  This record and map
exist only to state that claim; `get_zway_devices_failed` (src lines 138–141)
performs no such reshape. -/
structure FailedEntry where
  id : Int
  name : List Char
  location : List Char
deriving DecidableEq, Repr

/-- Modelled from the spec: the §4.7 reshape itself. -/
def reshapeFailedSpec (d : ZwayDevice) : FailedEntry :=
  { id := d.nodeId, name := d.metrics.title, location := d.locationName }

/-! ## Claim theorems -/

/-- C1: `InactivityFilter` outputs exactly the devices whose idx is not in
`ignoredDeviceIds` and whose elapsed whole days (floor) since `lastUpdate` is
at least the effective timeout (the per-device override when present, else the
default); ignored devices are excluded regardless of staleness. -/
theorem c1_inactivity_filter (rules : SuppressionRules) (now : Int)
    (devices : List Device) :
    get_devices_inactive rules now devices =
      devices.filter (fun d =>
        decide (d.idx ∉ rules.ignoredDeviceIds) &&
        decide (effectiveTimeout rules d.idx ≤ staleDays now d)) := by
  rw [get_devices_inactive_eq_filter]
  rfl

/-- C2: whenever the automation low-battery filter returns a list, that list
is exactly the sublist of the input whose idx is in the opt-in set and whose
(present) battery level is strictly below the threshold; devices outside the
opt-in set are never flagged, and input order is preserved. -/
theorem c2_low_battery_filter (rules : SuppressionRules) (devices out : List Device)
    (h : get_devices_low_battery rules devices = some out) :
    out = devices.filter (fun d =>
      decide (d.idx ∈ rules.lowBatteryDeviceIds) &&
      match d.batteryLevel with
      | some b => decide (b < rules.lowBatteryThreshold)
      | none => false) :=
  get_devices_low_battery_eq_filter rules devices out h

/-- C2 witness: a device outside the opt-in set with battery 0 is not
flagged; an opted-in device below the threshold is. -/
theorem c2_low_battery_filter_witness :
    get_devices_low_battery rulesB [dev5, dev8, dev9] = some [dev8] ∧
    [dev8] = [dev5, dev8, dev9].filter (fun d =>
      decide (d.idx ∈ rulesB.lowBatteryDeviceIds) &&
      match d.batteryLevel with
      | some b => decide (b < rulesB.lowBatteryThreshold)
      | none => false) :=
  ⟨by decide, c2_low_battery_filter rulesB [dev5, dev8, dev9] [dev8] (by decide)⟩

/-- C3: the log aggregator keys each entry by `message[32:]`, drops an entry
exactly when some ignored pattern matches some contiguous slice of the key
(`re.search`: a match anywhere suffices, a full match is not required), and
outputs exactly one `{text, count}` row per distinct surviving key, `count`
being the number of surviving entries with that key. -/
theorem c3_log_error_aggregator (log_messages_ignored : List Regex)
    (items : List LogEntry) :
    ((get_log_errors log_messages_ignored (some items)).map ErrorEntry.text).Nodup ∧
    (∀ k, k ∈ (get_log_errors log_messages_ignored (some items)).map ErrorEntry.text ↔
      k ∈ survivingKeys log_messages_ignored items) ∧
    (∀ e ∈ get_log_errors log_messages_ignored (some items),
      e.count = (survivingKeys log_messages_ignored items).count e.text) ∧
    (∀ key, ignore_log_message log_messages_ignored key = true ↔
      ∃ p ∈ log_messages_ignored, ∃ i n,
        p.fullMatch ((key.drop i).take n) = true) := by
  refine ⟨get_log_errors_texts_nodup log_messages_ignored items, fun k => ?_,
    fun e he => ((mem_get_log_errors_iff log_messages_ignored items e).mp he).2,
    fun key => ignore_log_message_iff log_messages_ignored key⟩
  rw [show get_log_errors log_messages_ignored (some items) =
    items.foldl (logStep log_messages_ignored) [] from rfl,
    foldl_logStep_mem]
  simp

/-- C3 witness: with pattern `E` ignored, the two messages keyed
`"disk full"` survive and the message keyed `"Err"` is suppressed. -/
theorem c3_log_error_aggregator_witness :
    "disk full".toList ∈
      (get_log_errors [patE] (some [logItem1, logItem2, logItem3])).map
        ErrorEntry.text :=
  ((c3_log_error_aggregator [patE] [logItem1, logItem2, logItem3]).2.1 _).mpr
    (by decide)

/-- C4 counterexample: two failed devices that agree on `nodeId`, `title` and
`locationName` (so the claimed reshape identifies them) produce different
outputs, because `get_zway_devices_failed` returns the raw device records, not
`{id, name, location}` reshapes. -/
theorem c4_counterexample :
    reshapeFailedSpec zwaySensor = reshapeFailedSpec zwaySwitch ∧
    get_zway_devices_failed [zwaySensor] ≠ get_zway_devices_failed [zwaySwitch] :=
  ⟨rfl, by decide⟩

/-- C4 (amended): `get_zway_devices_failed` outputs exactly the devices with
`metrics.isFailed = true`, as the unchanged input records in pass-through
order (a sublist of the input); no reshape happens in the normalizer. -/
theorem c4_failed_gateway_filter (zway_devices : List ZwayDevice) :
    (get_zway_devices_failed zway_devices).Sublist zway_devices ∧
    ∀ d, d ∈ get_zway_devices_failed zway_devices ↔
      d ∈ zway_devices ∧ d.metrics.isFailed = true := by
  refine ⟨List.filter_sublist _, fun d => ?_⟩
  simp [get_zway_devices_failed, List.mem_filter]

/-- C4 witness: the spec's own example device (node 1, failed) appears in the
output as the raw record. -/
theorem c4_failed_gateway_filter_witness :
    zwaySensor ∈ get_zway_devices_failed [zwaySensor] :=
  ((c4_failed_gateway_filter [zwaySensor]).2 zwaySensor).mpr (by decide)

/-- C5 counterexample: a §3-conforming device with `batteryLevel` absent that
is in the low-battery opt-in set makes `get_devices_low_battery` raise
`KeyError` (modelled as `none`), so that normalizer is not total on the §3
data model. -/
theorem c5_counterexample :
    get_devices_low_battery rulesC [dev7none] = none := by decide

/-- C5 (amended): both `Option`-valued normalizers are total away from the
one failure surface: the automation low-battery filter succeeds when every
opted-in device has a battery level, and the gateway low-battery filter
succeeds when every battery-type device has a level (which §3 guarantees);
the remaining normalizers read only required fields and are total by
construction. -/
theorem c5_totality (rules : SuppressionRules) (devices : List Device)
    (low_battery_level : Int) (zway_devices : List ZwayDevice)
    (hb : ∀ d ∈ devices, d.idx ∈ rules.lowBatteryDeviceIds → d.batteryLevel ≠ none)
    (hz : ∀ d ∈ zway_devices, d.deviceType = "battery".toList → d.metrics.level ≠ none) :
    (∃ out, get_devices_low_battery rules devices = some out) ∧
    (∃ out, get_zway_devices_low_battery low_battery_level zway_devices = some out) :=
  ⟨get_devices_low_battery_total rules devices hb,
    get_zway_devices_low_battery_total low_battery_level zway_devices hz⟩

/-- C5 witness: on inputs whose opted-in devices carry battery levels and
whose battery-type gateway devices carry levels, both filters succeed. -/
theorem c5_totality_witness :
    (∀ d ∈ [dev7ok], d.idx ∈ rulesC.lowBatteryDeviceIds → d.batteryLevel ≠ none) ∧
    (∀ d ∈ [zwayBatt], d.deviceType = "battery".toList → d.metrics.level ≠ none) ∧
    ((∃ out, get_devices_low_battery rulesC [dev7ok] = some out) ∧
      (∃ out, get_zway_devices_low_battery 20 [zwayBatt] = some out)) :=
  ⟨by decide, by decide,
    c5_totality rulesC [dev7ok] 20 [zwayBatt] (by decide) (by decide)⟩

/-- C6: the multiset of `(key, count)` rows is invariant under permutation of
the input entries, and the report's log-error list is sorted descending by
count. -/
theorem c6_log_error_reordering (log_messages_ignored : List Regex)
    (items items' : List LogEntry) (h : items.Perm items')
    (payload : Option (List LogEntry)) :
    (get_log_errors log_messages_ignored (some items)).Perm
      (get_log_errors log_messages_ignored (some items')) ∧
    (report_log_errors log_messages_ignored payload).Sorted
      (fun a b => b.count ≤ a.count) := by
  refine ⟨get_log_errors_perm log_messages_ignored h, ?_⟩
  haveI : IsTotal ErrorEntry (fun a b => b.count ≤ a.count) :=
    ⟨fun a b => le_total b.count a.count⟩
  haveI : IsTrans ErrorEntry (fun a b => b.count ≤ a.count) :=
    ⟨fun a b c hab hbc => le_trans hbc hab⟩
  exact List.sorted_insertionSort _ _

/-- C6 witness: swapping the two log entries permutes nothing observable, and
the report list for them is sorted descending by count. -/
theorem c6_log_error_reordering_witness :
    ([logItem1, logItem2].Perm [logItem2, logItem1]) ∧
    ((get_log_errors [] (some [logItem1, logItem2])).Perm
        (get_log_errors [] (some [logItem2, logItem1])) ∧
      (report_log_errors [] (some [logItem1, logItem2])).Sorted
        (fun a b => b.count ≤ a.count)) :=
  ⟨by decide, c6_log_error_reordering [] [logItem1, logItem2]
    [logItem2, logItem1] (by decide) (some [logItem1, logItem2])⟩

/-- C7: a payload without the `'result'` records container yields the empty
list, not an error. -/
theorem c7_degraded_payload (log_messages_ignored : List Regex) :
    get_log_errors log_messages_ignored none = [] := rfl

/-- C8: the unassigned-device normalizer selects exactly the devices with
`PlanID == "0"` (unchanged, in pass-through order), and the report list is
that selection sorted ascending by `idx` in lexicographic string order. -/
theorem c8_unassigned_devices (devices : List Device) :
    (report_devices_no_roomplan devices).Sorted (fun a b => a.idx ≤ b.idx) ∧
    (report_devices_no_roomplan devices).Perm (get_devices_no_roomplan devices) ∧
    (get_devices_no_roomplan devices).Sublist devices ∧
    ∀ d, d ∈ get_devices_no_roomplan devices ↔
      d ∈ devices ∧ d.planID = "0".toList := by
  refine ⟨?_, List.perm_insertionSort _ _, List.filter_sublist _, fun d => ?_⟩
  · haveI : IsTotal Device (fun a b => a.idx ≤ b.idx) :=
      ⟨fun a b => le_total a.idx b.idx⟩
    haveI : IsTrans Device (fun a b => a.idx ≤ b.idx) :=
      ⟨fun a b c hab hbc => le_trans hab hbc⟩
    exact List.sorted_insertionSort _ _
  · simp [get_devices_no_roomplan, List.mem_filter]

/-- C8 witness: `"10"` sorts before `"2"` in the report's lexical order. -/
theorem c8_unassigned_devices_witness :
    (report_devices_no_roomplan [dev2plan0, dev10plan0]).Sorted
      (fun a b => a.idx ≤ b.idx) ∧
    report_devices_no_roomplan [dev2plan0, dev10plan0] = [dev10plan0, dev2plan0] :=
  ⟨(c8_unassigned_devices [dev2plan0, dev10plan0]).1, by decide⟩

/-- C9: the report's inactive-device list is the inactivity filter's output
sorted ascending by `lastUpdate`: adjacent entries are in non-decreasing
timestamp order (oldest first). -/
theorem c9_inactive_report_sorted (rules : SuppressionRules) (now : Int)
    (devices : List Device) :
    (report_devices_inactive rules now devices).Sorted
      (fun a b => a.lastUpdate ≤ b.lastUpdate) ∧
    List.Chain' (fun a b => a.lastUpdate ≤ b.lastUpdate)
      (report_devices_inactive rules now devices) ∧
    (report_devices_inactive rules now devices).Perm
      (get_devices_inactive rules now devices) := by
  haveI : IsTotal Device (fun a b => a.lastUpdate ≤ b.lastUpdate) :=
    ⟨fun a b => le_total a.lastUpdate b.lastUpdate⟩
  haveI : IsTrans Device (fun a b => a.lastUpdate ≤ b.lastUpdate) :=
    ⟨fun a b c hab hbc => le_trans hab hbc⟩
  have hs : (report_devices_inactive rules now devices).Sorted
      (fun a b => a.lastUpdate ≤ b.lastUpdate) :=
    List.sorted_insertionSort _ _
  exact ⟨hs, List.Pairwise.chain' hs, List.perm_insertionSort _ _⟩

/-- C10: every device-selecting normalizer returns a sublist of its input
(the unchanged records, in input order), so identities that are unique in the
input appear at most once in the output. -/
theorem c10_subsequence_invariant (rules : SuppressionRules)
    (now low_battery_level : Int) (devices out : List Device)
    (zway_devices zout : List ZwayDevice)
    (hlb : get_devices_low_battery rules devices = some out)
    (hzlb : get_zway_devices_low_battery low_battery_level zway_devices = some zout)
    (hidx : (devices.map Device.idx).Nodup)
    (hnode : (zway_devices.map ZwayDevice.nodeId).Nodup) :
    (get_devices_inactive rules now devices).Sublist devices ∧
    out.Sublist devices ∧
    (get_devices_no_roomplan devices).Sublist devices ∧
    (get_zway_devices_failed zway_devices).Sublist zway_devices ∧
    zout.Sublist zway_devices ∧
    ((get_devices_inactive rules now devices).map Device.idx).Nodup ∧
    (out.map Device.idx).Nodup ∧
    ((get_devices_no_roomplan devices).map Device.idx).Nodup ∧
    ((get_zway_devices_failed zway_devices).map ZwayDevice.nodeId).Nodup ∧
    (zout.map ZwayDevice.nodeId).Nodup := by
  have h1 : (get_devices_inactive rules now devices).Sublist devices := by
    rw [get_devices_inactive_eq_filter]
    exact List.filter_sublist _
  have h2 : out.Sublist devices := by
    rw [get_devices_low_battery_eq_filter rules devices out hlb]
    exact List.filter_sublist _
  have h3 : (get_devices_no_roomplan devices).Sublist devices :=
    List.filter_sublist _
  have h4 : (get_zway_devices_failed zway_devices).Sublist zway_devices :=
    List.filter_sublist _
  have h5 : zout.Sublist zway_devices := by
    rw [get_zway_devices_low_battery_eq_filter low_battery_level zway_devices zout hzlb]
    exact List.filter_sublist _
  exact ⟨h1, h2, h3, h4, h5,
    List.Nodup.sublist (h1.map Device.idx) hidx,
    List.Nodup.sublist (h2.map Device.idx) hidx,
    List.Nodup.sublist (h3.map Device.idx) hidx,
    List.Nodup.sublist (h4.map ZwayDevice.nodeId) hnode,
    List.Nodup.sublist (h5.map ZwayDevice.nodeId) hnode⟩

/-- C10 witness: a concrete run of all five selectors on inputs with unique
identities. -/
theorem c10_subsequence_invariant_witness :
    get_devices_low_battery rulesC [dev7ok, dev8] = some [dev7ok] ∧
    get_zway_devices_low_battery 20 [zwaySensor, zwayBatt] = some [zwayBatt] ∧
    ([dev7ok, dev8].map Device.idx).Nodup ∧
    ([zwaySensor, zwayBatt].map ZwayDevice.nodeId).Nodup ∧
    ((get_devices_inactive rulesC 0 [dev7ok, dev8]).Sublist [dev7ok, dev8] ∧
      List.Sublist [dev7ok] [dev7ok, dev8] ∧
      (get_devices_no_roomplan [dev7ok, dev8]).Sublist [dev7ok, dev8] ∧
      (get_zway_devices_failed [zwaySensor, zwayBatt]).Sublist [zwaySensor, zwayBatt] ∧
      List.Sublist [zwayBatt] [zwaySensor, zwayBatt] ∧
      ((get_devices_inactive rulesC 0 [dev7ok, dev8]).map Device.idx).Nodup ∧
      (([dev7ok] : List Device).map Device.idx).Nodup ∧
      ((get_devices_no_roomplan [dev7ok, dev8]).map Device.idx).Nodup ∧
      ((get_zway_devices_failed [zwaySensor, zwayBatt]).map ZwayDevice.nodeId).Nodup ∧
      (([zwayBatt] : List ZwayDevice).map ZwayDevice.nodeId).Nodup) :=
  ⟨by decide, by decide, by decide, by decide,
    c10_subsequence_invariant rulesC 0 20 [dev7ok, dev8] [dev7ok]
      [zwaySensor, zwayBatt] [zwayBatt] (by decide) (by decide) (by decide)
      (by decide)⟩
